import Mathlib

/-!
Verification development for the ETL transformation-and-reconciliation
pipeline (CSV rows → item upsert requests → family backfill → chunked
reconciliation against an external catalog, aggregated into a batch
status record).

The definitions below are a shallow embedding of the TypeScript source:

* `ItemTransformationService` (`transformCsvRowToItem`,
  `transformCsvRowsToItems`, `ensureFamilyItemsExist`);
* `BatchProcessingService` (`processBatch`, `processItemsInBatches`,
  `processSingleBatch`, `chunkArray`, `MAX_BATCH_SIZE`);
* the domain models `CsvRow`, `CreateItemRequest`, `ItemRole`, `Batch`,
  `BatchStatus`, `BatchError`, `CreateBatchRequest`,
  `BatchProcessingResult`.

Modelling conventions:

* JavaScript `Date` timestamps are modelled as a `Nat` parameter `now`
  (all timestamps created during one call share it).
* The external collaborators (CSV parser, catalog lookup/create/update)
  are modelled as pure fallible functions (`Except String`), gathered in
  a `Collaborators` record; a `Map<string,string>` result is modelled as
  an association list queried with `List.lookup` (first match).
* The batch status store is modelled in memory and infallible: every
  persisted batch record (one per `saveBatch`/`updateBatch` in source
  order) is returned in a list, and every catalog call that is issued is
  recorded in a `CatalogCall` trace.
* JavaScript truthiness on optional string fields (`csvRow.optionFederatedId
  ? a : b`, `if (existingId)`, `!row.optionFederatedId`) is modelled
  explicitly: the value must be present AND non-empty.  The nullish
  coalescing `x ?? y` is `Option.getD`, which only falls back when the
  field is absent.
* The batch id is produced by an impure generator in the source
  (time + random suffix); it is taken as a parameter here.
-/

/-- ItemRole: the closed role enumeration, source values "family" and
"option". -/
inductive ItemRole where
  | family
  | option
deriving DecidableEq, Repr

/-- CsvRow: raw CSV row data before transformation.  The optional
`optionFederatedId` TS field is an `Option String`. -/
structure CsvRow where
  familyFederatedId : String
  optionFederatedId : Option String
  title : String
  details : String
deriving DecidableEq, Repr

/-- CreateItemRequest: value object for creating new items. -/
structure CreateItemRequest where
  name : String
  description : String
  federatedId : String
  roles : List ItemRole
deriving DecidableEq, Repr

/-- BatchStatus: the batch state machine.  The source string values are
"pending", "processing", "completed", "failed" and "partial"; the last
one is named `mixed` here because its source name is a Lean keyword. -/
inductive BatchStatus where
  | pending
  | processing
  | completed
  | failed
  | mixed
deriving DecidableEq, Repr

/-- BatchError: error details for batch processing. -/
structure BatchError where
  itemFederatedId : String
  error : String
  timestamp : Nat
deriving DecidableEq, Repr

/-- Batch: domain model of a batch processing job. -/
structure Batch where
  id : String
  status : BatchStatus
  totalItems : Nat
  processedItems : Nat
  failedItems : Nat
  createdAt : Nat
  updatedAt : Nat
  errors : List BatchError
deriving DecidableEq, Repr

/-- CreateBatchRequest: request to create a new batch. -/
structure CreateBatchRequest where
  csvContent : String
deriving DecidableEq, Repr

/-- BatchProcessingResult: result shape returned by `processBatch`. -/
structure BatchProcessingResult where
  batchId : String
  status : BatchStatus
  totalItems : Nat
  processedItems : Nat
  failedItems : Nat
  errors : List BatchError
deriving DecidableEq, Repr

/-- optionKeyTruthy: JavaScript truthiness of `csvRow.optionFederatedId`
(present and non-empty). -/
def optionKeyTruthy (csvRow : CsvRow) : Bool :=
  match csvRow.optionFederatedId with
  | some s => s != ""
  | none => false

/-- transformCsvRowToItem, from `ItemTransformationService`:
`federatedId = csvRow.optionFederatedId ?? csvRow.familyFederatedId`
(nullish coalescing), `roles = csvRow.optionFederatedId ? ["option"] :
["family"]` (truthiness), `name = title`, `description = details`. -/
def transformCsvRowToItem (csvRow : CsvRow) : CreateItemRequest :=
  let federatedId := csvRow.optionFederatedId.getD csvRow.familyFederatedId
  let roles : List ItemRole :=
    if optionKeyTruthy csvRow then [ItemRole.option] else [ItemRole.family]
  { name := csvRow.title
    description := csvRow.details
    federatedId := federatedId
    roles := roles }

/-- transformCsvRowsToItems, from `ItemTransformationService`. -/
def transformCsvRowsToItems (csvRows : List CsvRow) : List CreateItemRequest :=
  csvRows.map transformCsvRowToItem

/-- insertIfAbsent: one insertion step of a JavaScript `Set` built from a
list (insertion order preserved, duplicates dropped). -/
def insertIfAbsent (acc : List String) (x : String) : List String :=
  if x ∈ acc then acc else acc ++ [x]

/-- setOfList: `new Set(xs)` iterated in insertion order. -/
def setOfList (xs : List String) : List String :=
  xs.foldl insertIfAbsent []

/-- missingFamilyIds: the `missingFamilyIds` computation inside
`ensureFamilyItemsExist`: family ids of truthy-option rows
(`optionFamilyIds`) that are not declared by any falsy-option row
(`familyFederatedIds`). -/
def missingFamilyIds (csvRows : List CsvRow) : List String :=
  let familyFederatedIds :=
    setOfList ((csvRows.filter (fun row => !(optionKeyTruthy row))).map
      (fun row => row.familyFederatedId))
  let optionFamilyIds :=
    setOfList ((csvRows.filter (fun row => optionKeyTruthy row)).map
      (fun row => row.familyFederatedId))
  optionFamilyIds.filter (fun id => !(familyFederatedIds.contains id))

/-- synthFamilyItem: the synthesized family record built for one missing
family id inside `ensureFamilyItemsExist`. -/
def synthFamilyItem (federatedId : String) : CreateItemRequest :=
  { name := "Family " ++ federatedId
    description := "Auto-generated family for " ++ federatedId
    federatedId := federatedId
    roles := [ItemRole.family] }

/-- missingFamilyItems: the `missingFamilyItems` list inside
`ensureFamilyItemsExist`. -/
def missingFamilyItems (csvRows : List CsvRow) : List CreateItemRequest :=
  (missingFamilyIds csvRows).map synthFamilyItem

/-- ensureFamilyItemsExist, from `ItemTransformationService`: appends one
synthesized family record per missing family id to the transformed
items. -/
def ensureFamilyItemsExist (transformedItems : List CreateItemRequest)
    (csvRows : List CsvRow) : List CreateItemRequest :=
  transformedItems ++ missingFamilyItems csvRows

-- Decidable equality for `Except` results, used to evaluate concrete
-- reconciliation outcomes.
deriving instance DecidableEq for Except

/-- maxBatchSize: `BatchProcessingService.MAX_BATCH_SIZE` (the external
API chunk limit). -/
def maxBatchSize : Nat := 100

/-- deriveStatus: the final-status conditional of
`processItemsInBatches` (`failedItems === 0 ? "completed" :
processedItems === 0 ? "failed" : "partial"`), exposed as the pure
function `deriveStatus(total, processed, failed)` of the design; the
`total` argument is not consulted. -/
def deriveStatus (total processed failed : Nat) : BatchStatus :=
  if failed = 0 then BatchStatus.completed
  else if processed = 0 then BatchStatus.failed
  else BatchStatus.mixed

/-- chunkArrayGo: structural worker for `chunkArray`.  One step per
loop iteration of the source (`array.slice(i, i + chunkSize)` for
`i = 0, chunkSize, 2*chunkSize, ...`); the `fuel` argument only makes
the recursion structural (hence kernel-computable) and is never
exhausted when `fuel ≥ array.length` and `chunkSize ≥ 1`, see
`chunkArrayGo_fuel_irrelevant`. -/
def chunkArrayGo {α : Type} : Nat → List α → Nat → List (List α)
  | _, [], _ => []
  | 0, _ :: _, _ => []
  | fuel + 1, a :: rest, chunkSize =>
    if chunkSize = 0 then []
    else
      ((a :: rest).take chunkSize) ::
        chunkArrayGo fuel ((a :: rest).drop chunkSize) chunkSize

/-- chunkArray, from `BatchProcessingService`: slices of `chunkSize`
consecutive elements.  For `chunkSize = 0` the source loop would not
terminate on a non-empty array; the value returned here for that
out-of-contract case is `[]`. -/
def chunkArray {α : Type} (array : List α) (chunkSize : Nat) : List (List α) :=
  chunkArrayGo array.length array chunkSize

/-- CatalogCall: one call issued to the external catalog service
(`lookupItemsByFederatedIds`, `createItemsBatch` or
`updateItemsBatch`), recorded in issue order. -/
inductive CatalogCall where
  | lookup (federatedIds : List String)
  | create (items : List CreateItemRequest)
  | update (items : List (CreateItemRequest × String))
deriving DecidableEq, Repr

/-- Collaborators: the external collaborators consumed by
`BatchProcessingService` (CSV parser and catalog client), each modelled
as a pure fallible function.  The `Map<string,string>` returned by the
lookup is modelled as an association list. -/
structure Collaborators where
  parseCsvContent : String → Except String (List CsvRow)
  lookupItemsByFederatedIds : List String → Except String (List (String × String))
  createItemsBatch : List CreateItemRequest → Except String (List String)
  updateItemsBatch : List (CreateItemRequest × String) → Except String (List String)

/-- partitionForUpsert: the `items.forEach` loop of `processSingleBatch`
that splits a chunk into `itemsToCreate` and `itemsToUpdate`;
`if (existingId)` is truthiness, so an item whose looked-up internal id
is present but empty is routed to create. -/
def partitionForUpsert (existingItems : List (String × String))
    (items : List CreateItemRequest) :
    List CreateItemRequest × List (CreateItemRequest × String) :=
  items.foldl
    (fun acc item =>
      match existingItems.lookup item.federatedId with
      | some existingId =>
        if existingId != "" then (acc.1, acc.2 ++ [(item, existingId)])
        else (acc.1 ++ [item], acc.2)
      | none => (acc.1 ++ [item], acc.2))
    ([], [])

/-- processSingleBatch, from `BatchProcessingService`: size guard, one
lookup call, partition into create/update, then the create call (if
non-empty) and the update call (if non-empty).  Both calls are issued
before `Promise.all` is awaited, so both appear in the trace even when
one fails; on failure the create call's error is reported first.
Returns the outcome together with the catalog calls issued. -/
def processSingleBatch (c : Collaborators) (items : List CreateItemRequest) :
    Except String Unit × List CatalogCall :=
  if maxBatchSize < items.length then
    (Except.error ("Batch size " ++ toString items.length ++
      " exceeds maximum of " ++ toString maxBatchSize), [])
  else
    let federatedIds := items.map (fun item => item.federatedId)
    match c.lookupItemsByFederatedIds federatedIds with
    | Except.error e => (Except.error e, [CatalogCall.lookup federatedIds])
    | Except.ok existingItems =>
      let parts := partitionForUpsert existingItems items
      let itemsToCreate := parts.1
      let itemsToUpdate := parts.2
      let createRes :=
        if itemsToCreate.isEmpty then Except.ok []
        else c.createItemsBatch itemsToCreate
      let updateRes :=
        if itemsToUpdate.isEmpty then Except.ok []
        else c.updateItemsBatch itemsToUpdate
      let calls := [CatalogCall.lookup federatedIds] ++
        (if itemsToCreate.isEmpty then [] else [CatalogCall.create itemsToCreate]) ++
        (if itemsToUpdate.isEmpty then [] else [CatalogCall.update itemsToUpdate])
      match createRes, updateRes with
      | Except.error e, _ => (Except.error e, calls)
      | _, Except.error e => (Except.error e, calls)
      | Except.ok _, Except.ok _ => (Except.ok (), calls)

/-- BatchAgg: the mutable aggregate of `processItemsInBatches`
(`processedItems`, `failedItems`, `errors`). -/
structure BatchAgg where
  processedItems : Nat
  failedItems : Nat
  errors : List BatchError
deriving DecidableEq, Repr

/-- processChunkStep: one iteration of the `for (const batch of
batches)` loop of `processItemsInBatches`: on success `processedItems +=
batch.length`; on failure `failedItems += batch.length` and one
`BatchError` per item of the chunk is appended, all carrying the same
error message.  The catalog-call trace is threaded alongside. -/
def processChunkStep (c : Collaborators) (now : Nat)
    (acc : BatchAgg × List CatalogCall) (batch : List CreateItemRequest) :
    BatchAgg × List CatalogCall :=
  let r := processSingleBatch c batch
  match r.1 with
  | Except.ok _ =>
    ({ acc.1 with processedItems := acc.1.processedItems + batch.length },
      acc.2 ++ r.2)
  | Except.error e =>
    ({ acc.1 with
        failedItems := acc.1.failedItems + batch.length
        errors := acc.1.errors ++ batch.map (fun item =>
          { itemFederatedId := item.federatedId, error := e, timestamp := now }) },
      acc.2 ++ r.2)

/-- BatchUpdate: `Partial<Batch>` as accepted by
`BatchRepository.updateBatch`; absent fields are left unchanged. -/
structure BatchUpdate where
  status : Option BatchStatus := none
  totalItems : Option Nat := none
  processedItems : Option Nat := none
  failedItems : Option Nat := none
  updatedAt : Option Nat := none
  errors : Option (List BatchError) := none

/-- applyBatchUpdate: the merge performed by the status store on
`updateBatch(batchId, updates)`: present fields overwrite, absent
fields are kept. -/
def applyBatchUpdate (b : Batch) (u : BatchUpdate) : Batch :=
  { b with
    status := u.status.getD b.status
    totalItems := u.totalItems.getD b.totalItems
    processedItems := u.processedItems.getD b.processedItems
    failedItems := u.failedItems.getD b.failedItems
    updatedAt := u.updatedAt.getD b.updatedAt
    errors := u.errors.getD b.errors }

/-- createInitialBatch, from `BatchProcessingService`: the initial
pending record with all counts zero. -/
def createInitialBatch (batchId : String) (now : Nat) : Batch :=
  { id := batchId
    status := BatchStatus.pending
    totalItems := 0
    processedItems := 0
    failedItems := 0
    createdAt := now
    updatedAt := now
    errors := [] }

/-- processItemsInBatches, from `BatchProcessingService`: chunk the items
by `MAX_BATCH_SIZE`, reconcile each chunk (failures isolated per
chunk), derive the final status and persist it once.  Takes the
currently persisted batch record `b`, returns the
`BatchProcessingResult`, the final persisted batch and the catalog call
trace. -/
def processItemsInBatches (c : Collaborators) (now : Nat) (batchId : String)
    (b : Batch) (items : List CreateItemRequest) :
    BatchProcessingResult × Batch × List CatalogCall :=
  let batches := chunkArray items maxBatchSize
  let res := batches.foldl (processChunkStep c now) (⟨0, 0, []⟩, [])
  let agg := res.1
  let status : BatchStatus :=
    if agg.failedItems = 0 then BatchStatus.completed
    else if agg.processedItems = 0 then BatchStatus.failed
    else BatchStatus.mixed
  let finalBatch := applyBatchUpdate b
    { status := some status
      processedItems := some agg.processedItems
      failedItems := some agg.failedItems
      errors := some agg.errors
      updatedAt := some now }
  ({ batchId := batchId
     status := finalBatch.status
     totalItems := finalBatch.totalItems
     processedItems := finalBatch.processedItems
     failedItems := finalBatch.failedItems
     errors := finalBatch.errors },
    finalBatch, res.2)

/-- processBatch, from `BatchProcessingService`: create the initial
record, parse, transform, backfill families, set totals, reconcile in
chunks.  A parse failure is caught, persisted as a `failed` batch with
the single sentinel error, and re-raised.  Returns the outcome, the
list of persisted batch records in persistence order, and the catalog
call trace. -/
def processBatch (c : Collaborators) (batchId : String) (now : Nat)
    (request : CreateBatchRequest) :
    Except String BatchProcessingResult × List Batch × List CatalogCall :=
  let b0 := createInitialBatch batchId now
  match c.parseCsvContent request.csvContent with
  | Except.error e =>
    let bF := applyBatchUpdate b0
      { status := some BatchStatus.failed
        errors := some [{ itemFederatedId := "batch", error := e, timestamp := now }] }
    (Except.error e, [b0, bF], [])
  | Except.ok csvRows =>
    let transformedItems := transformCsvRowsToItems csvRows
    let itemsWithFamilies := ensureFamilyItemsExist transformedItems csvRows
    let b1 := applyBatchUpdate b0
      { totalItems := some itemsWithFamilies.length
        status := some BatchStatus.processing }
    let r := processItemsInBatches c now batchId b1 itemsWithFamilies
    (Except.ok r.1, [b0, b1, r.2.1], r.2.2)

/-- referencedFamiliesSpec: following the specification's words, the set
(in first-seen order) of `familyKey`s of rows with a PRESENT
`optionKey` — presence, not truthiness. -/
def referencedFamiliesSpec (csvRows : List CsvRow) : List String :=
  setOfList ((csvRows.filter (fun row => row.optionFederatedId.isSome)).map
    (fun row => row.familyFederatedId))

/-- declaredFamiliesSpec: following the specification's words, the set
(in first-seen order) of `familyKey`s of rows with an ABSENT
`optionKey`. -/
def declaredFamiliesSpec (csvRows : List CsvRow) : List String :=
  setOfList ((csvRows.filter (fun row => row.optionFederatedId.isNone)).map
    (fun row => row.familyFederatedId))

/-- ensureFamilyItemsExistSpec: the behaviour the specification ascribes
to `ensureFamilyItemsExist`, with referenced/declared families decided
by presence of `optionKey`: the original items followed by one
synthesized record per id of `referencedFamilies − declaredFamilies`
in first-seen order. -/
def ensureFamilyItemsExistSpec (transformedItems : List CreateItemRequest)
    (csvRows : List CsvRow) : List CreateItemRequest :=
  transformedItems ++
    ((referencedFamiliesSpec csvRows).filter
      (fun id => !((declaredFamiliesSpec csvRows).contains id))).map
      synthFamilyItem

/-- isTrimmed: a string equal to its own trim, expressed structurally
(no leading and no trailing whitespace character). -/
def isTrimmed (s : String) : Bool :=
  (s.data.head?.all (fun ch => !ch.isWhitespace)) &&
  (s.data.getLast?.all (fun ch => !ch.isWhitespace))

/-- RowInvariant: the row validator's guarantee on `CsvRow`:
`optionFederatedId` is either absent or a non-empty trimmed string. -/
def RowInvariant (r : CsvRow) : Prop :=
  match r.optionFederatedId with
  | none => True
  | some s => isTrimmed s = true ∧ s ≠ ""

/-- famRow: a declared-family fixture row (scenario A of the design). -/
def famRow : CsvRow :=
  { familyFederatedId := "fam1", optionFederatedId := none
    title := "Title A", details := "Details A" }

/-- optRow: an option fixture row belonging to `fam1`. -/
def optRow : CsvRow :=
  { familyFederatedId := "fam1", optionFederatedId := some "opt1"
    title := "Title B", details := "Details B" }

/-- optionOnlyRow: an option fixture row whose family is never declared
(scenario B of the design). -/
def optionOnlyRow : CsvRow :=
  { familyFederatedId := "fam2", optionFederatedId := some "opt2"
    title := "Title C", details := "Details C" }

/-- rowEmptyOption: a fixture row outside the row validator's guarantee:
`optionFederatedId` is present but equal to the empty string. -/
def rowEmptyOption : CsvRow :=
  { familyFederatedId := "f1", optionFederatedId := some ""
    title := "t", details := "d" }

/-- mkItem: a distinct option-item fixture per index. -/
def mkItem (i : Nat) : CreateItemRequest :=
  { name := "Item " ++ toString i
    description := "Desc"
    federatedId := "id" ++ toString i
    roles := [ItemRole.option] }

/-- scenarioItems: 150 distinct items (end-to-end scenario C). -/
def scenarioItems : List CreateItemRequest := (List.range 150).map mkItem

/-- scenarioCollab: collaborators for scenario C: parsing succeeds with
no rows, nothing exists in the catalog yet, the create call fails
exactly on a 50-item chunk (the second chunk of scenario C) and
succeeds otherwise, updates always succeed. -/
def scenarioCollab : Collaborators :=
  { parseCsvContent := fun _ => Except.ok []
    lookupItemsByFederatedIds := fun _ => Except.ok []
    createItemsBatch := fun items =>
      if items.length = 50 then Except.error "create failed"
      else Except.ok (items.map (fun item => item.federatedId))
    updateItemsBatch := fun items => Except.ok (items.map (fun p => p.2)) }

/-- failingLookupCollab: collaborators whose parse and lookup calls
always fail; create and update succeed. -/
def failingLookupCollab : Collaborators :=
  { parseCsvContent := fun _ => Except.error "ParseError: missing required column"
    lookupItemsByFederatedIds := fun _ => Except.error "lookup unavailable"
    createItemsBatch := fun items => Except.ok (items.map (fun item => item.federatedId))
    updateItemsBatch := fun items => Except.ok (items.map (fun p => p.2)) }

/-!
Theorems.  The first group establishes the algebra of `chunkArray`; the
`c1` … `c10` theorems settle the specification claims.
-/

/-- chunkArrayGo is independent of the fuel as soon as the fuel covers
the list length and the chunk size is positive. -/
theorem chunkArrayGo_fuel_irrelevant {α : Type} (n : Nat) (hn : n ≠ 0) :
    ∀ (fuel : Nat) (l : List α), l.length ≤ fuel →
      chunkArrayGo fuel l n = chunkArrayGo l.length l n := by
  intro fuel
  induction fuel using Nat.strong_induction_on with
  | _ fuel ih =>
    intro l hl
    cases l with
    | nil => cases fuel <;> rfl
    | cons a rest =>
      cases fuel with
      | zero => simp at hl
      | succ fuel =>
        simp only [List.length_cons] at hl ⊢
        simp only [chunkArrayGo, if_neg hn]
        have hdropfuel : ((a :: rest).drop n).length ≤ fuel := by
          simp only [List.length_drop, List.length_cons]
          omega
        have hdroprest : ((a :: rest).drop n).length ≤ rest.length := by
          simp only [List.length_drop, List.length_cons]
          omega
        rw [ih fuel (by omega) ((a :: rest).drop n) hdropfuel,
          ih rest.length (by omega) ((a :: rest).drop n) hdroprest]

/-- chunkArray on the empty list is the empty list of chunks. -/
theorem chunkArray_nil {α : Type} (n : Nat) : chunkArray ([] : List α) n = [] := rfl

/-- chunkArray unfolding on a non-empty list and positive chunk size:
the first `n` elements form the first chunk and the rest is chunked
recursively. -/
theorem chunkArray_cons {α : Type} (a : α) (rest : List α) (n : Nat) (hn : n ≠ 0) :
    chunkArray (a :: rest) n =
      ((a :: rest).take n) :: chunkArray ((a :: rest).drop n) n := by
  show chunkArrayGo (a :: rest).length (a :: rest) n = _
  have h1 : chunkArrayGo (a :: rest).length (a :: rest) n =
      if n = 0 then [] else
        ((a :: rest).take n) :: chunkArrayGo rest.length ((a :: rest).drop n) n := by
    simp only [List.length_cons]
    rfl
  rw [h1, if_neg hn]
  have hdroprest : ((a :: rest).drop n).length ≤ rest.length := by
    simp only [List.length_drop, List.length_cons]
    omega
  rw [chunkArrayGo_fuel_irrelevant n hn rest.length ((a :: rest).drop n) hdroprest]
  rfl

/-- Concatenating the chunks returns the original list (positive chunk
size). -/
theorem chunkArray_flatten {α : Type} (n : Nat) (hn : n ≠ 0) (l : List α) :
    (chunkArray l n).flatten = l := by
  cases l with
  | nil => rfl
  | cons a rest =>
    rw [chunkArray_cons a rest n hn]
    have ih := chunkArray_flatten n hn ((a :: rest).drop n)
    simp only [List.flatten_cons, ih]
    exact List.take_append_drop n (a :: rest)
termination_by l.length
decreasing_by
  simp only [List.length_drop, List.length_cons]
  omega

/-- Every chunk has length at most the chunk size (positive chunk
size). -/
theorem chunkArray_length_le {α : Type} (n : Nat) (hn : n ≠ 0) (l : List α) :
    ∀ c ∈ chunkArray l n, c.length ≤ n := by
  cases l with
  | nil =>
    intro c hc
    rw [chunkArray_nil] at hc
    simp at hc
  | cons a rest =>
    intro c hc
    rw [chunkArray_cons a rest n hn] at hc
    rcases List.mem_cons.mp hc with h | h
    · subst h
      exact List.length_take_le n (a :: rest)
    · exact chunkArray_length_le n hn ((a :: rest).drop n) c h
termination_by l.length
decreasing_by
  simp only [List.length_drop, List.length_cons]
  omega

/-- Chunk `i` is the contiguous slice of the original list starting at
offset `i * n` (positive chunk size). -/
theorem chunkArray_getElem {α : Type} (n : Nat) (hn : n ≠ 0) (l : List α)
    (i : Nat) (hi : i < (chunkArray l n).length) :
    (chunkArray l n)[i]? = some ((l.drop (i * n)).take n) := by
  generalize hlen : l.length = len
  induction len using Nat.strong_induction_on generalizing l i with
  | _ len ih =>
    subst hlen
    cases l with
    | nil =>
      rw [chunkArray_nil] at hi
      simp at hi
    | cons a rest =>
      rw [chunkArray_cons a rest n hn] at hi ⊢
      cases i with
      | zero => simp
      | succ i =>
        simp only [List.getElem?_cons_succ]
        have hi' : i < (chunkArray ((a :: rest).drop n) n).length := by
          simpa using hi
        have hlt : ((a :: rest).drop n).length < (a :: rest).length := by
          simp only [List.length_drop, List.length_cons]
          omega
        rw [ih ((a :: rest).drop n).length hlt ((a :: rest).drop n) i hi' rfl]
        rw [List.drop_drop]
        have harith : n + i * n = (i + 1) * n := by ring
        rw [harith]

/-- Every chunk except possibly the last starts within the list with
room for a full chunk: `n` elements remain at its offset (positive
chunk size). -/
theorem chunkArray_full_of_not_last {α : Type} (n : Nat) (hn : n ≠ 0) (l : List α)
    (i : Nat) (hi : i + 1 < (chunkArray l n).length) :
    n ≤ (l.drop (i * n)).length := by
  generalize hlen : l.length = len
  induction len using Nat.strong_induction_on generalizing l i with
  | _ len ih =>
    subst hlen
    cases l with
    | nil =>
      rw [chunkArray_nil] at hi
      simp at hi
    | cons a rest =>
      rw [chunkArray_cons a rest n hn] at hi
      cases i with
      | zero =>
        simp only [List.length_cons, Nat.zero_mul, List.drop_zero] at hi ⊢
        have hne : (a :: rest).drop n ≠ [] := by
          intro hnil
          rw [hnil, chunkArray_nil] at hi
          simp at hi
        have hpos : 0 < ((a :: rest).drop n).length := List.length_pos.mpr hne
        simp only [List.length_drop, List.length_cons] at hpos ⊢
        omega
      | succ i =>
        have hi' : i + 1 < (chunkArray ((a :: rest).drop n) n).length := by
          simpa using hi
        have hlt : ((a :: rest).drop n).length < (a :: rest).length := by
          simp only [List.length_drop, List.length_cons]
          omega
        have hrec := ih ((a :: rest).drop n).length hlt ((a :: rest).drop n) i hi' rfl
        rw [List.drop_drop] at hrec
        have harith : n + i * n = (i + 1) * n := by ring
        rw [harith] at hrec
        exact hrec

/-- C4: for every item sequence and positive chunk size, the
concatenation of `chunkArray`'s chunks equals the original sequence,
every chunk has length at most the limit, every chunk except possibly
the last has length exactly the limit, and chunk `i` is the contiguous
slice of the original sequence starting at offset `i * limit`. -/
theorem chunking_c4 {α : Type} (l : List α) (n : Nat) (hn : 0 < n) :
    (chunkArray l n).flatten = l ∧
    (∀ c ∈ chunkArray l n, c.length ≤ n) ∧
    (∀ i : Nat, i < (chunkArray l n).length →
      (chunkArray l n)[i]? = some ((l.drop (i * n)).take n)) ∧
    (∀ i : Nat, i + 1 < (chunkArray l n).length →
      ∀ c, (chunkArray l n)[i]? = some c → c.length = n) := by
  have hn' : n ≠ 0 := Nat.pos_iff_ne_zero.mp hn
  refine ⟨chunkArray_flatten n hn' l, chunkArray_length_le n hn' l,
    fun i hi => chunkArray_getElem n hn' l i hi, fun i hi c hc => ?_⟩
  have hget := chunkArray_getElem n hn' l i (Nat.lt_of_succ_lt hi)
  rw [hget] at hc
  have hc' : c = (l.drop (i * n)).take n := by
    exact Option.some.inj hc.symm
  subst hc'
  have hfull := chunkArray_full_of_not_last n hn' l i hi
  simp only [List.length_take]
  omega

/-- C4 witness: the chunking properties instantiated at the concrete
list `[10, 20, 30, 40, 50]` with chunk size `2`. -/
theorem chunking_c4_witness :
    0 < 2 ∧
    ((chunkArray [10, 20, 30, 40, 50] 2).flatten = [10, 20, 30, 40, 50] ∧
     (∀ c ∈ chunkArray [10, 20, 30, 40, 50] 2, c.length ≤ 2) ∧
     (∀ i : Nat, i < (chunkArray [10, 20, 30, 40, 50] 2).length →
       (chunkArray [10, 20, 30, 40, 50] 2)[i]? =
         some (([10, 20, 30, 40, 50].drop (i * 2)).take 2)) ∧
     (∀ i : Nat, i + 1 < (chunkArray [10, 20, 30, 40, 50] 2).length →
       ∀ c, (chunkArray [10, 20, 30, 40, 50] 2)[i]? = some c → c.length = 2)) :=
  ⟨by decide, chunking_c4 [10, 20, 30, 40, 50] 2 (by decide)⟩

/-- C1: for every row satisfying the Row invariant (`optionKey` absent
or a non-empty trimmed string), `transformCsvRowToItem` maps title to
name and details to description; when `optionKey` is absent it yields
roles `[family]` and `federatedId = familyKey`, otherwise roles
`[option]` and `federatedId = optionKey`. -/
theorem transform_row_c1 (r : CsvRow) (h : RowInvariant r) :
    (transformCsvRowToItem r).name = r.title ∧
    (transformCsvRowToItem r).description = r.details ∧
    (match r.optionFederatedId with
     | none => (transformCsvRowToItem r).roles = [ItemRole.family] ∧
         (transformCsvRowToItem r).federatedId = r.familyFederatedId
     | some s => (transformCsvRowToItem r).roles = [ItemRole.option] ∧
         (transformCsvRowToItem r).federatedId = s) := by
  obtain ⟨fam, opt, title, details⟩ := r
  cases opt with
  | none =>
    simp [transformCsvRowToItem, optionKeyTruthy]
  | some s =>
    have hs : s ≠ "" := by
      have h2 := h.2
      simpa using h2
    simp [transformCsvRowToItem, optionKeyTruthy, hs]

/-- C1 witness: the transformation claim at the concrete valid option
row `optRow`. -/
theorem transform_row_c1_witness :
    RowInvariant optRow ∧
    ((transformCsvRowToItem optRow).name = optRow.title ∧
     (transformCsvRowToItem optRow).description = optRow.details ∧
     (match optRow.optionFederatedId with
      | none => (transformCsvRowToItem optRow).roles = [ItemRole.family] ∧
          (transformCsvRowToItem optRow).federatedId = optRow.familyFederatedId
      | some s => (transformCsvRowToItem optRow).roles = [ItemRole.option] ∧
          (transformCsvRowToItem optRow).federatedId = s)) :=
  ⟨⟨by decide, by decide⟩, transform_row_c1 optRow ⟨by decide, by decide⟩⟩

/-- C3: the derived final batch status is `completed` iff no item
failed, `failed` iff nothing was processed and at least one item
failed, and `partial` (constructor `mixed`) otherwise; including the
three concrete examples of the specification. -/
theorem derive_status_c3 :
    (∀ total processed failed : Nat,
      (deriveStatus total processed failed = BatchStatus.completed ↔ failed = 0) ∧
      (deriveStatus total processed failed = BatchStatus.failed ↔
        processed = 0 ∧ 0 < failed) ∧
      (deriveStatus total processed failed = BatchStatus.mixed ↔
        ¬(failed = 0) ∧ ¬(processed = 0 ∧ 0 < failed))) ∧
    deriveStatus 5 5 0 = BatchStatus.completed ∧
    deriveStatus 5 0 5 = BatchStatus.failed ∧
    deriveStatus 5 3 2 = BatchStatus.mixed := by
  refine ⟨fun total processed failed => ?_, by decide, by decide, by decide⟩
  unfold deriveStatus
  by_cases hf : failed = 0 <;> by_cases hp : processed = 0 <;>
    simp [hf, hp] <;> omega

/-- C10: for a row whose `optionFederatedId` is present but empty (input
outside the row validator's guarantee), the transformation yields roles
`[family]` (truthiness) yet `federatedId = ""` (nullish coalescing):
role inference and federated-id fallback use different notions of
presence. -/
theorem transform_empty_option_c10 (r : CsvRow)
    (h : r.optionFederatedId = some "") :
    (transformCsvRowToItem r).roles = [ItemRole.family] ∧
    (transformCsvRowToItem r).federatedId = "" := by
  simp [transformCsvRowToItem, optionKeyTruthy, h]

/-- C10 witness: the empty-option-key divergence at the concrete row
`rowEmptyOption`. -/
theorem transform_empty_option_c10_witness :
    rowEmptyOption.optionFederatedId = some "" ∧
    ((transformCsvRowToItem rowEmptyOption).roles = [ItemRole.family] ∧
     (transformCsvRowToItem rowEmptyOption).federatedId = "") :=
  ⟨rfl, transform_empty_option_c10 rowEmptyOption rfl⟩

/-- C2 counterexample: on a row whose `optionKey` is present but empty,
the code treats the row as a declared family (truthiness) while the
claim's reading (presence) would synthesize a family record, so
`ensureFamilyItemsExist` differs from the claimed behaviour
`ensureFamilyItemsExistSpec` at this input. -/
theorem ensure_families_c2_counterexample :
    ensureFamilyItemsExist [] [rowEmptyOption] = [] ∧
    ensureFamilyItemsExistSpec [] [rowEmptyOption] = [synthFamilyItem "f1"] ∧
    ensureFamilyItemsExist [] [rowEmptyOption] ≠
      ensureFamilyItemsExistSpec [] [rowEmptyOption] := by
  refine ⟨by decide, by decide, by decide⟩

/-- C2 amended: for rows in which no `optionKey` is the present empty
string (in particular all rows meeting the Row invariant),
`ensureFamilyItemsExist` returns the items unchanged followed by
exactly one synthesized record per id in referencedFamilies minus
declaredFamilies, in first-seen order — i.e. it agrees with
`ensureFamilyItemsExistSpec`. -/
theorem ensure_families_c2_amended (items : List CreateItemRequest)
    (rows : List CsvRow) (h : some "" ∉ rows.map CsvRow.optionFederatedId) :
    ensureFamilyItemsExist items rows = ensureFamilyItemsExistSpec items rows := by
  have hpt : ∀ r ∈ rows, optionKeyTruthy r = r.optionFederatedId.isSome := by
    intro r hr
    cases hopt : r.optionFederatedId with
    | none => simp [optionKeyTruthy, hopt]
    | some s =>
      have hs : s ≠ "" := by
        intro hse
        subst hse
        exact h (hopt ▸ List.mem_map_of_mem CsvRow.optionFederatedId hr)
      simp [optionKeyTruthy, hopt, hs]
  have hfilter1 : rows.filter (fun row => !(optionKeyTruthy row)) =
      rows.filter (fun row => row.optionFederatedId.isNone) := by
    refine List.filter_congr ?_
    intro r hr
    rw [hpt r hr]
    cases r.optionFederatedId <;> simp
  have hfilter2 : rows.filter (fun row => optionKeyTruthy row) =
      rows.filter (fun row => row.optionFederatedId.isSome) := by
    refine List.filter_congr ?_
    intro r hr
    exact hpt r hr
  unfold ensureFamilyItemsExist ensureFamilyItemsExistSpec missingFamilyItems
    missingFamilyIds referencedFamiliesSpec declaredFamiliesSpec
  rw [hfilter1, hfilter2]

/-- C2 amended witness: agreement of code and claimed behaviour on the
concrete two-row input (one declared family, one option). -/
theorem ensure_families_c2_amended_witness :
    some "" ∉ [famRow, optRow].map CsvRow.optionFederatedId ∧
    ensureFamilyItemsExist (transformCsvRowsToItems [famRow, optRow])
        [famRow, optRow] =
      ensureFamilyItemsExistSpec (transformCsvRowsToItems [famRow, optRow])
        [famRow, optRow] :=
  ⟨by decide,
   ensure_families_c2_amended (transformCsvRowsToItems [famRow, optRow])
     [famRow, optRow] (by decide)⟩

/-- C7 counterexample: `ensureFamilyItemsExist` is not idempotent — the
missing-family computation only inspects the rows, never the item set,
so re-applying it to its own output (for rows that do reference a
missing family) appends the synthesized family a second time. -/
theorem ensure_families_c7_counterexample :
    ensureFamilyItemsExist
        (ensureFamilyItemsExist (transformCsvRowsToItems [optionOnlyRow])
          [optionOnlyRow])
        [optionOnlyRow] ≠
      ensureFamilyItemsExist (transformCsvRowsToItems [optionOnlyRow])
        [optionOnlyRow] := by
  decide

/-- C7 amended: a second application of `ensureFamilyItemsExist` with the
same rows appends the synthesized family records again; it is a no-op
precisely when the rows reference no missing family. -/
theorem ensure_families_c7_amended (items : List CreateItemRequest)
    (rows : List CsvRow) :
    ensureFamilyItemsExist (ensureFamilyItemsExist items rows) rows =
      ensureFamilyItemsExist items rows ++ missingFamilyItems rows ∧
    (ensureFamilyItemsExist (ensureFamilyItemsExist items rows) rows =
        ensureFamilyItemsExist items rows ↔ missingFamilyItems rows = []) := by
  refine ⟨rfl, ?_, ?_⟩
  · intro he
    have h2 : ensureFamilyItemsExist items rows ++ missingFamilyItems rows =
        ensureFamilyItemsExist items rows ++ [] := by
      rw [List.append_nil]
      exact he
    exact List.append_cancel_left h2
  · intro hm
    show ensureFamilyItemsExist items rows ++ missingFamilyItems rows = _
    rw [hm, List.append_nil]

/-- C5: when a chunk's reconciliation fails with error `e`, the step of
the reconciliation loop leaves `processedItems` unchanged, increases
`failedItems` by exactly the chunk's length, and appends exactly one
`BatchError` per item of the chunk, each carrying that item's
`federatedId` and the same message `e`. -/
theorem chunk_failure_c5 (c : Collaborators) (now : Nat)
    (acc : BatchAgg × List CatalogCall) (batch : List CreateItemRequest)
    (e : String) (h : (processSingleBatch c batch).1 = Except.error e) :
    (processChunkStep c now acc batch).1.processedItems = acc.1.processedItems ∧
    (processChunkStep c now acc batch).1.failedItems =
      acc.1.failedItems + batch.length ∧
    (processChunkStep c now acc batch).1.errors =
      acc.1.errors ++ batch.map (fun item =>
        { itemFederatedId := item.federatedId, error := e, timestamp := now }) := by
  simp [processChunkStep, h]

/-- C5 witness: a one-item chunk whose lookup call fails, starting from
the aggregate (2 processed, 3 failed, no errors). -/
theorem chunk_failure_c5_witness :
    (processSingleBatch failingLookupCollab [mkItem 0]).1 =
      Except.error "lookup unavailable" ∧
    ((processChunkStep failingLookupCollab 7 (⟨⟨2, 3, []⟩, []⟩)
        [mkItem 0]).1.processedItems = 2 ∧
     (processChunkStep failingLookupCollab 7 (⟨⟨2, 3, []⟩, []⟩)
        [mkItem 0]).1.failedItems = 4 ∧
     (processChunkStep failingLookupCollab 7 (⟨⟨2, 3, []⟩, []⟩)
        [mkItem 0]).1.errors =
       [{ itemFederatedId := "id0", error := "lookup unavailable", timestamp := 7 }]) := by
  have h := chunk_failure_c5 failingLookupCollab 7 ⟨⟨2, 3, []⟩, []⟩ [mkItem 0]
    "lookup unavailable" rfl
  exact ⟨rfl, h.1, h.2.1, h.2.2⟩

set_option maxRecDepth 10000 in
/-- C6: end-to-end scenario C — 150 items with chunk limit 100 form
exactly 2 chunks of sizes 100 and 50; the first chunk reconciles
successfully while the second chunk's create call fails; the failure
does not abort the other chunk, and the final batch has 100 processed
items, 50 failed items, status partial (constructor `mixed`) and
exactly 50 `BatchError` entries. -/
theorem scenario_batch_c6 :
    (chunkArray scenarioItems maxBatchSize).map List.length = [100, 50] ∧
    (processSingleBatch scenarioCollab
        ((chunkArray scenarioItems maxBatchSize).getD 0 [])).1 = Except.ok () ∧
    (processSingleBatch scenarioCollab
        ((chunkArray scenarioItems maxBatchSize).getD 1 [])).1 =
      Except.error "create failed" ∧
    (processItemsInBatches scenarioCollab 0 "b1" (createInitialBatch "b1" 0)
        scenarioItems).1.processedItems = 100 ∧
    (processItemsInBatches scenarioCollab 0 "b1" (createInitialBatch "b1" 0)
        scenarioItems).1.failedItems = 50 ∧
    (processItemsInBatches scenarioCollab 0 "b1" (createInitialBatch "b1" 0)
        scenarioItems).1.status = BatchStatus.mixed ∧
    (processItemsInBatches scenarioCollab 0 "b1" (createInitialBatch "b1" 0)
        scenarioItems).1.errors.length = 50 := by
  decide

/-- C8: when parsing the raw input fails with error `e`, `processBatch`
persists exactly one further batch record — status `failed` with the
single sentinel error (`itemFederatedId = "batch"`, message `e`) —
issues no catalog call at all, and re-raises the parse error to the
caller. -/
theorem parse_failure_c8 (c : Collaborators) (batchId : String) (now : Nat)
    (request : CreateBatchRequest) (e : String)
    (h : c.parseCsvContent request.csvContent = Except.error e) :
    (processBatch c batchId now request).1 = Except.error e ∧
    (processBatch c batchId now request).2.2 = [] ∧
    (processBatch c batchId now request).2.1.getLast?.map Batch.status =
      some BatchStatus.failed ∧
    (processBatch c batchId now request).2.1.getLast?.map Batch.errors =
      some [{ itemFederatedId := "batch", error := e, timestamp := now }] := by
  simp [processBatch, h, applyBatchUpdate, createInitialBatch]

/-- C8 witness: the parse-failure contract at a concrete collaborator
whose parser rejects the input. -/
theorem parse_failure_c8_witness :
    failingLookupCollab.parseCsvContent "bad" =
      Except.error "ParseError: missing required column" ∧
    ((processBatch failingLookupCollab "b1" 3 ⟨"bad"⟩).1 =
      Except.error "ParseError: missing required column" ∧
     (processBatch failingLookupCollab "b1" 3 ⟨"bad"⟩).2.2 = [] ∧
     (processBatch failingLookupCollab "b1" 3 ⟨"bad"⟩).2.1.getLast?.map Batch.status =
       some BatchStatus.failed ∧
     (processBatch failingLookupCollab "b1" 3 ⟨"bad"⟩).2.1.getLast?.map Batch.errors =
       some [{ itemFederatedId := "batch",
               error := "ParseError: missing required column", timestamp := 3 }]) := by
  have h := parse_failure_c8 failingLookupCollab "b1" 3 ⟨"bad"⟩
    "ParseError: missing required column" rfl
  exact ⟨rfl, h⟩

/-- One reconciliation step adds exactly the chunk's length to the sum
of the processed and failed counters, whatever the outcome. -/
theorem processChunkStep_counts (c : Collaborators) (now : Nat)
    (acc : BatchAgg × List CatalogCall) (batch : List CreateItemRequest) :
    (processChunkStep c now acc batch).1.processedItems +
      (processChunkStep c now acc batch).1.failedItems =
      acc.1.processedItems + acc.1.failedItems + batch.length := by
  rcases hr : (processSingleBatch c batch).1 with e | u <;>
    simp [processChunkStep, hr] <;> omega

/-- Over the whole reconciliation loop the processed and failed counters
sum to the accumulator's sum plus the total length of all chunks. -/
theorem foldl_chunk_counts (c : Collaborators) (now : Nat) :
    ∀ (batches : List (List CreateItemRequest)) (acc : BatchAgg × List CatalogCall),
      (batches.foldl (processChunkStep c now) acc).1.processedItems +
        (batches.foldl (processChunkStep c now) acc).1.failedItems =
        acc.1.processedItems + acc.1.failedItems + (batches.map List.length).sum := by
  intro batches
  induction batches with
  | nil =>
    intro acc
    simp
  | cons b bs ih =>
    intro acc
    simp only [List.foldl_cons, List.map_cons, List.sum_cons]
    rw [ih (processChunkStep c now acc b)]
    have hstep := processChunkStep_counts c now acc b
    omega

/-- The batch persisted by `processItemsInBatches` has processed+failed
equal to the item count, keeps the stored total, and carries a terminal
status. -/
theorem processItemsInBatches_final (c : Collaborators) (now : Nat)
    (batchId : String) (b : Batch) (items : List CreateItemRequest) :
    (processItemsInBatches c now batchId b items).2.1.processedItems +
      (processItemsInBatches c now batchId b items).2.1.failedItems =
      items.length ∧
    (processItemsInBatches c now batchId b items).2.1.totalItems = b.totalItems ∧
    ((processItemsInBatches c now batchId b items).2.1.status = BatchStatus.completed ∨
     (processItemsInBatches c now batchId b items).2.1.status = BatchStatus.failed ∨
     (processItemsInBatches c now batchId b items).2.1.status = BatchStatus.mixed) := by
  have hsum := foldl_chunk_counts c now (chunkArray items maxBatchSize) (⟨0, 0, []⟩, [])
  have hflat : ((chunkArray items maxBatchSize).map List.length).sum = items.length := by
    rw [← List.length_flatten, chunkArray_flatten maxBatchSize (by decide) items]
  simp only at hsum
  rw [hflat] at hsum
  unfold processItemsInBatches
  simp only [applyBatchUpdate, Option.getD_some]
  refine ⟨by simpa using hsum, rfl, ?_⟩
  by_cases hf : (List.foldl (processChunkStep c now) (⟨⟨0, 0, []⟩, []⟩)
      (chunkArray items maxBatchSize)).1.failedItems = 0
  · left
    simp [hf]
  · by_cases hp : (List.foldl (processChunkStep c now) (⟨⟨0, 0, []⟩, []⟩)
        (chunkArray items maxBatchSize)).1.processedItems = 0
    · right; left
      simp [hf, hp]
    · right; right
      simp [hf, hp]

/-- C9: every batch record persisted during one `processBatch`
invocation satisfies `processedItems + failedItems ≤ totalItems`, and on
the normal path (parse succeeds) the final persisted record has a
terminal status, `processedItems + failedItems = totalItems`, and
`totalItems` equal to the length of the full resolved item set. -/
theorem batch_invariant_c9 (c : Collaborators) (batchId : String) (now : Nat)
    (request : CreateBatchRequest) :
    (∀ b ∈ (processBatch c batchId now request).2.1,
      b.processedItems + b.failedItems ≤ b.totalItems) ∧
    (∀ rows, c.parseCsvContent request.csvContent = Except.ok rows →
      ∃ bf, (processBatch c batchId now request).2.1.getLast? = some bf ∧
        (bf.status = BatchStatus.completed ∨ bf.status = BatchStatus.failed ∨
         bf.status = BatchStatus.mixed) ∧
        bf.processedItems + bf.failedItems = bf.totalItems ∧
        bf.totalItems =
          (ensureFamilyItemsExist (transformCsvRowsToItems rows) rows).length) := by
  rcases hp : c.parseCsvContent request.csvContent with e | rows
  · constructor
    · intro b hb
      simp only [processBatch, hp, List.mem_cons, List.not_mem_nil, or_false] at hb
      rcases hb with rfl | rfl
      · simp [createInitialBatch]
      · simp [applyBatchUpdate, createInitialBatch]
    · intro rows hrows
      simp at hrows
  · have hfin := processItemsInBatches_final c now batchId
      (applyBatchUpdate (createInitialBatch batchId now)
        { totalItems := some (ensureFamilyItemsExist (transformCsvRowsToItems rows) rows).length
          status := some BatchStatus.processing })
      (ensureFamilyItemsExist (transformCsvRowsToItems rows) rows)
    constructor
    · intro b hb
      simp only [processBatch, hp, List.mem_cons, List.not_mem_nil, or_false] at hb
      rcases hb with rfl | rfl | rfl
      · simp [createInitialBatch]
      · simp [applyBatchUpdate, createInitialBatch]
      · rw [hfin.1, hfin.2.1]
        simp [applyBatchUpdate, createInitialBatch]
    · intro rows' hrows
      have hrr : rows = rows' := Except.ok.inj hrows
      subst hrr
      refine ⟨(processItemsInBatches c now batchId
          (applyBatchUpdate (createInitialBatch batchId now)
            { totalItems := some (ensureFamilyItemsExist (transformCsvRowsToItems rows) rows).length
              status := some BatchStatus.processing })
          (ensureFamilyItemsExist (transformCsvRowsToItems rows) rows)).2.1, ?_, ?_, ?_, ?_⟩
      · simp only [processBatch, hp]
        rfl
      · exact hfin.2.2
      · rw [hfin.1, hfin.2.1]
        simp [applyBatchUpdate, createInitialBatch]
      · rw [hfin.2.1]
        simp [applyBatchUpdate, createInitialBatch]

/-- C9 witness: the persisted-record invariant instantiated at a
concrete collaborator whose parser succeeds. -/
theorem batch_invariant_c9_witness :
    (∀ b ∈ (processBatch scenarioCollab "b1" 0 { csvContent := "raw" }).2.1,
      b.processedItems + b.failedItems ≤ b.totalItems) ∧
    (∀ rows, scenarioCollab.parseCsvContent
        ({ csvContent := "raw" } : CreateBatchRequest).csvContent = Except.ok rows →
      ∃ bf, (processBatch scenarioCollab "b1" 0
          { csvContent := "raw" }).2.1.getLast? = some bf ∧
        (bf.status = BatchStatus.completed ∨ bf.status = BatchStatus.failed ∨
         bf.status = BatchStatus.mixed) ∧
        bf.processedItems + bf.failedItems = bf.totalItems ∧
        bf.totalItems =
          (ensureFamilyItemsExist (transformCsvRowsToItems rows) rows).length) :=
  batch_invariant_c9 scenarioCollab "b1" 0 { csvContent := "raw" }
